import Mathlib

/-!
Verification development for the concordia negotiation core.

The repository ships the `advanced_negotiator` prefab together with tests,
demos and examples of the negotiation components.  The component
implementations themselves (strategy engine, module registry, social
intelligence, cultural awareness, strategy evolution, swarm consensus,
orchestrator) are exercised by the tests but their files are not part of the
sources available here, so those parts are modelled from the specification, as
marked on each definition.  Real numbers of the Python code are modelled as
rationals.
-/

namespace Concordia

/-! ## Strategy Engine -/

/-- Modelled from the spec: `BasicNegotiationStrategy._evaluate_offer` (file
`negotiation_strategy.py`, not among the available sources).  Returns
"excellent" if value is at least target, "acceptable" if at least the
reservation value but below target, "unacceptable" below reservation. -/
def evaluate_offer (reservation target value : ℚ) : String :=
  if target ≤ value then "excellent"
  else if reservation ≤ value then "acceptable"
  else "unacceptable"

/-- Modelled from the spec: `BasicNegotiationStrategy._calculate_concession_amount`
(file `negotiation_strategy.py`, not among the available sources).  The
concession shrinks geometrically with the round index: an initial concession
scaled by a decay factor raised to the round index.  `max_rounds` bounds the
schedule but does not enter the geometric formula. -/
def concession_amount (initial decay : ℚ) (round_index max_rounds : ℕ) : ℚ :=
  initial * decay ^ round_index

/-! ## Module Registry -/

/-- Modelled from the spec: `NegotiationGMModuleRegistry.register` (file
`negotiation_modules.py`, not among the available sources).  A Python dict
write: if the name is present its factory is replaced in place, otherwise the
pair is appended. -/
def register {α : Type} (reg : List (String × α)) (nm : String) (f : α) :
    List (String × α) :=
  if reg.any (fun e => e.1 == nm) then
    reg.map (fun e => if e.1 == nm then (nm, f) else e)
  else
    reg ++ [(nm, f)]

/-- Modelled from the spec: `NegotiationGMModuleRegistry.create_module` (file
`negotiation_modules.py`, not among the available sources).  Looks the factory
up and invokes it; an unknown name yields `none` ("not found") rather than an
exception. -/
def create_module {α : Type} (reg : List (String × (Unit → α))) (nm : String) :
    Option α :=
  (reg.find? (fun e => e.1 == nm)).map (fun e => e.2 ())

/-! ## Cultural profiles -/

/-- A cultural style descriptor: name plus three style coordinates in [0,1]. -/
structure CulturalProfile where
  name : String
  directness : ℚ
  formality : ℚ
  risk_tolerance : ℚ
  deriving DecidableEq

/-- Modelled from the spec: `CulturalProfile.get_distance_from` (file
`cultural_adaptation.py`, not among the available sources).  Mean absolute
difference of the three style coordinates. -/
def get_distance_from (a b : CulturalProfile) : ℚ :=
  (|a.directness - b.directness| + |a.formality - b.formality| +
    |a.risk_tolerance - b.risk_tolerance|) / 3

/-- Modelled from the spec and the component tests: the immutable catalogue
`CULTURAL_PROFILES` (file `cultural_adaptation.py`, not among the available
sources).  Values chosen to satisfy the test assertions: western directness
above one half, eastern below, and a western/eastern distance above one half.
This is the catalogued western-business profile. -/
def westernBusinessProfile : CulturalProfile :=
  ⟨"Western Business (USA/UK)", 9/10, 3/10, 7/10⟩

/-- The catalogued east-asian profile. -/
def eastAsianProfile : CulturalProfile :=
  ⟨"East Asian (Japan/China)", 2/10, 9/10, 2/10⟩

/-- The catalogued middle-eastern profile. -/
def middleEasternProfile : CulturalProfile :=
  ⟨"Middle Eastern", 5/10, 7/10, 6/10⟩

/-- The catalogued latin-american profile. -/
def latinAmericanProfile : CulturalProfile :=
  ⟨"Latin American", 6/10, 4/10, 5/10⟩

/-- The profile catalogue, keyed by culture key. -/
def CULTURAL_PROFILES : List (String × CulturalProfile) :=
  [("western_business", westernBusinessProfile),
   ("east_asian", eastAsianProfile),
   ("middle_eastern", middleEasternProfile),
   ("latin_american", latinAmericanProfile)]

/-! ## Social-Intelligence module (deception detection) -/

/-- A flagged inconsistency between two numeric claims of one participant on
the same topic, referencing both rounds. -/
structure DeceptionIndicator where
  participant : String
  topic : String
  first_round : ℕ
  second_round : ℕ
  deriving DecidableEq

/-- One stored numeric claim: participant, topic, last claimed value and the
round at which it was observed. -/
structure TopicClaim where
  participant : String
  topic : String
  value : ℚ
  round : ℕ
  deriving DecidableEq

/-- Look a stored claim up by participant and topic. -/
def findClaim (st : List TopicClaim) (p t : String) : Option TopicClaim :=
  st.find? (fun c => c.participant == p && c.topic == t)

/-- Replace the stored value and round of the claim of participant `p` on
topic `t`. -/
def updateClaim (st : List TopicClaim) (p t : String) (v : ℚ) (r : ℕ) :
    List TopicClaim :=
  st.map (fun c =>
    if c.participant == p && c.topic == t then ⟨p, t, v, r⟩ else c)

/-- Modelled from the spec: `SocialIntelligenceGM.check_consistency` (file
`gm_social_intelligence.py`, not among the available sources).  The numeric
claim has already been parsed into a topic `t` and a value `v`.  The first
claim of a participant on a topic is stored and never flagged; a later claim
is flagged with a `DeceptionIndicator` referencing both rounds exactly when it
differs from the stored value beyond the relative tolerance `tol` (difference
exceeding `tol` times the stored magnitude), and is otherwise stored with no
indicator. -/
def check_consistency (tol : ℚ) (st : List TopicClaim) (p t : String)
    (v : ℚ) (r : ℕ) : Option DeceptionIndicator × List TopicClaim :=
  match findClaim st p t with
  | none => (none, ⟨p, t, v, r⟩ :: st)
  | some prev =>
    if tol * |prev.value| < |v - prev.value| then
      (some ⟨p, t, prev.round, r⟩, st)
    else
      (none, updateClaim st p t v r)

/-! ## Orchestrator -/

/-- Negotiation phase. -/
inductive Phase
  | opening
  | bargaining
  | closing
  | concluded
  deriving DecidableEq

/-- A reached settlement. -/
structure Agreement where
  parties : List String
  terms : List (String × String)
  round : ℕ
  deriving DecidableEq

/-- One proposal. -/
structure Offer where
  offerer : String
  recipient : String
  terms : List (String × String)
  offer_type : String
  round : ℕ
  deriving DecidableEq

/-- One entry of the negotiation history. -/
inductive NegotiationEvent
  | offerEvent (o : Offer)
  | agreementEvent (a : Agreement)
  deriving DecidableEq

/-- The full state of one negotiation. -/
structure NegotiationState where
  history : List NegotiationEvent
  round : ℕ
  phase : Phase
  agreement : Option Agreement
  max_rounds : ℕ
  deriving DecidableEq

/-- The action accepted in one round: an offer, an acceptance, or a
withdrawal. -/
inductive RoundAction
  | makeOffer (o : Offer)
  | accept (parties : List String) (terms : List (String × String))
  | withdraw (participant : String)
  deriving DecidableEq

/-- Whether the negotiation has concluded. -/
def is_concluded (s : NegotiationState) : Bool :=
  s.phase == .concluded

/-- The read-only ordered event history. -/
def get_history (s : NegotiationState) : List NegotiationEvent :=
  s.history

/-- Phase progression short of conclusion: opening moves to bargaining, and
bargaining moves to closing on the round before the cap. -/
def advancePhase (p : Phase) (r max_rounds : ℕ) : Phase :=
  match p with
  | .opening => .bargaining
  | .bargaining => if max_rounds ≤ r + 1 then .closing else .bargaining
  | q => q

/-- Modelled from the spec: one `step()` of the negotiation orchestrator (game
master `negotiation.py`, not among the available sources).  A step on a
concluded state is a no-op.  Otherwise the round action is applied: an offer
is appended and the round counter advanced, concluding at the round cap; an
acceptance records an `Agreement` and concludes; a withdrawal concludes. -/
def step (s : NegotiationState) (a : RoundAction) : NegotiationState :=
  if s.phase = .concluded then s
  else
    match a with
    | .makeOffer o =>
      let r := s.round + 1
      ⟨s.history ++ [.offerEvent o], r,
        if s.max_rounds ≤ r then .concluded else advancePhase s.phase s.round s.max_rounds,
        s.agreement, s.max_rounds⟩
    | .accept parties terms =>
      let ag : Agreement := ⟨parties, terms, s.round⟩
      ⟨s.history ++ [.agreementEvent ag], s.round, .concluded, some ag, s.max_rounds⟩
    | .withdraw _ =>
      ⟨s.history, s.round, .concluded, s.agreement, s.max_rounds⟩

/-! ## Strategy-Evolution engine -/

/-- One candidate strategy-parameter vector with its evaluated fitness. -/
structure StrategyGenome where
  genes : List ℚ
  fitness : ℚ
  deriving DecidableEq

/-- The best genome among `g0` and the genomes of `pop`, by fitness. -/
def bestOf (g0 : StrategyGenome) (pop : List StrategyGenome) : StrategyGenome :=
  pop.foldl (fun b g => if b.fitness < g.fitness then g else b) g0

/-- Fitness-proportional selection walk: subtract each fitness from the draw
`r` until it goes below the current fitness; the last genome is the
fallback. -/
def selectGo (r : ℚ) : List StrategyGenome → StrategyGenome → StrategyGenome
  | [], last => last
  | g :: rest, _ => if r < g.fitness then g else selectGo (r - g.fitness) rest g

/-- Modelled from the spec: fitness-proportional parent selection of the
strategy-evolution engine (file `strategy_evolution.py`, not among the
available sources), driven by one random draw `r`. -/
def selectParent (pop : List StrategyGenome) (r : ℚ) : StrategyGenome :=
  match pop with
  | [] => ⟨[], 0⟩
  | g :: rest => selectGo r (g :: rest) g

/-- Modelled from the spec: gene-wise blend crossover with mixing weight `w`. -/
def crossover (p1 p2 : List ℚ) (w : ℚ) : List ℚ :=
  List.zipWith (fun a b => w * a + (1 - w) * b) p1 p2

/-- Modelled from the spec: per-gene mutation.  Each gene carries a Boolean
draw (whether the mutation fires) and an offset; a firing gene is perturbed by
the offset scaled by the learning rate. -/
def mutateGenes (genes : List ℚ) (draws : List (Bool × ℚ))
    (learning_rate : ℚ) : List ℚ :=
  List.zipWith (fun g d => if d.1 then g + learning_rate * d.2 else g)
    genes draws

/-- The random draws consumed in producing one offspring: two selection draws,
the crossover coin, the mixing weight and the per-gene mutation draws. -/
structure OffspringDraw where
  r1 : ℚ
  r2 : ℚ
  doCross : Bool
  w : ℚ
  perturb : List (Bool × ℚ)
  deriving DecidableEq

/-- Modelled from the spec: produce one offspring gene vector: select two
parents fitness-proportionally, blend them when the crossover coin fires
(otherwise clone the first parent), then mutate gene-wise. -/
def makeOffspring (pop : List StrategyGenome) (learning_rate : ℚ)
    (d : OffspringDraw) : List ℚ :=
  let p1 := selectParent pop d.r1
  let p2 := selectParent pop d.r2
  let childGenes := if d.doCross then crossover p1.genes p2.genes d.w
    else p1.genes
  mutateGenes childGenes d.perturb learning_rate

/-- Modelled from the spec: one generation of the strategy-evolution engine
(file `strategy_evolution.py`, not among the available sources).  The single
best genome of the prior population survives unconditionally (elitism,
keeping its fitness); the remaining slots are filled by offspring produced
from the random draws, each scored by the externally supplied fitness
function. -/
def nextGeneration (pop : List StrategyGenome) (learning_rate : ℚ)
    (draws : List OffspringDraw) (score : List ℚ → ℚ) : List StrategyGenome :=
  match pop with
  | [] => []
  | g :: rest =>
    bestOf g rest ::
      draws.map (fun d =>
        let genes := makeOffspring (g :: rest) learning_rate d
        ⟨genes, score genes⟩)

/-! ## Swarm-Consensus engine -/

/-- Total confidence weight of a recommendation set. -/
def totalWeight (recs : List (String × ℚ)) : ℚ :=
  (recs.map (fun e => e.2)).sum

/-- Total confidence weight carried by choice `c`. -/
def choiceWeight (recs : List (String × ℚ)) (c : String) : ℚ :=
  ((recs.filter (fun e => e.1 == c)).map (fun e => e.2)).sum

/-- Walk the candidate choices keeping the one of maximal weight. -/
def pluralityFrom (recs : List (String × ℚ)) (best : String) :
    List String → String
  | [] => best
  | c :: cs =>
    pluralityFrom recs
      (if choiceWeight recs best < choiceWeight recs c then c else best) cs

/-- Modelled from the spec: the plurality choice of a recommendation set — the
choice carrying the maximal total weight (`none` on an empty set). -/
def plurality (recs : List (String × ℚ)) : Option String :=
  match recs with
  | [] => none
  | (c, _) :: _ => some (pluralityFrom recs c (recs.map (fun e => e.1)))

/-- Modelled from the spec: the iteration loop of the swarm-consensus engine
(file `swarm_intelligence.py`, not among the available sources).  `fuel` is
the number of remaining iterations, `iter` the index of the current one.
Each iteration computes the plurality choice and its weighted agreement
fraction; the loop stops as soon as the fraction reaches the threshold,
otherwise the sub-agents revise their recommendations (`revise`) and the next
iteration runs.  When the budget is exhausted the plurality of the final
round is returned.  Returns the decision and the index of the iteration at
which it was reached. -/
def consensusLoop (revise : ℕ → List (String × ℚ) → List (String × ℚ))
    (threshold : ℚ) :
    ℕ → ℕ → List (String × ℚ) → Option (String × ℕ)
  | 0, _, _ => none
  | fuel + 1, iter, recs =>
    match plurality recs with
    | none => none
    | some c =>
      if threshold ≤ choiceWeight recs c / totalWeight recs then
        some (c, iter)
      else if fuel = 0 then
        some (c, iter)
      else
        consensusLoop revise threshold fuel (iter + 1) (revise iter recs)

/-- Modelled from the spec: `reach_consensus` of the swarm-consensus engine —
run the iteration loop for at most `max_iterations` rounds starting at
iteration 1. -/
def reach_consensus (revise : ℕ → List (String × ℚ) → List (String × ℚ))
    (threshold : ℚ) (max_iterations : ℕ) (recs : List (String × ℚ)) :
    Option (String × ℕ) :=
  consensusLoop revise threshold max_iterations 1 recs

/-- The recommendation set seen after `k` revisions when the loop entered
iteration `start` holding `recs`: at 0 the set held, and each later element
applies the revision of the iteration it closes. -/
def recsSeq (revise : ℕ → List (String × ℚ) → List (String × ℚ))
    (start : ℕ) (recs : List (String × ℚ)) : ℕ → List (String × ℚ)
  | 0 => recs
  | k + 1 => revise (start + k) (recsSeq revise start recs k)

/-- The weighted agreement fraction of the plurality choice of a
recommendation set (zero on an empty set). -/
def agreementFraction (recs : List (String × ℚ)) : ℚ :=
  match plurality recs with
  | none => 0
  | some c => choiceWeight recs c / totalWeight recs

/-! ## The `advanced_negotiator` prefab (`advanced_negotiator.py`)

`Entity.build` parses the comma-separated `modules` parameter and the JSON
`module_configs` parameter, then constructs one component per recognized
module name, reading each constructor argument from the configuration of that
module with a documented default.  Strings are embedded as `List Char`
so the Python `split`/`strip` functions can be stated and proved about;
`json.loads` is external to the repository and is embedded by its outcome: a
successfully parsed dictionary of per-module dictionaries, or `none` for a
`JSONDecodeError`. -/

/-- The characters removed by Python `str.strip()`. -/
def isPySpace (c : Char) : Bool :=
  c == ' ' || c == '\t' || c == '\n' || c == '\r' || c == '\x0b' || c == '\x0c'

/-- Python `str.split(',')` on a character list: splits at every comma; the
empty string yields one empty chunk. -/
def pySplitComma : List Char → List (List Char)
  | [] => [[]]
  | c :: rest =>
    if c = ',' then [] :: pySplitComma rest
    else
      match pySplitComma rest with
      | [] => [[c]]
      | chunk :: chunks => (c :: chunk) :: chunks

/-- Python `str.strip()` on a character list: drop whitespace from both
ends. -/
def pyStrip (s : List Char) : List Char :=
  ((s.dropWhile isPySpace).reverse.dropWhile isPySpace).reverse

/-- The module-list parse of `Entity.build`:
`[m.strip() for m in modules_str.split(',') if m.strip()]`. -/
def parseModules (s : List Char) : List (List Char) :=
  ((pySplitComma s).map pyStrip).filter (fun m => m ≠ [])

/-- A JSON-ish configuration value as passed to a component constructor. -/
inductive ConfigVal
  | num (q : ℚ)
  | str (s : String)
  | boolean (b : Bool)
  | null
  deriving DecidableEq

/-- A parsed per-module configuration dictionary. -/
abbrev ModuleConfig := List (String × ConfigVal)

/-- The parsed `module_configs` dictionary: module name to configuration. -/
abbrev ModuleConfigs := List (String × ModuleConfig)

/-- Python `dict.get(key, default)`. -/
def pyDictGet {α : Type} (d : List (String × α)) (k : String) (dflt : α) : α :=
  match d.find? (fun e => e.1 == k) with
  | some e => e.2
  | none => dflt

/-- The `CulturalAdaptation` constructor call, by its arguments. -/
structure CulturalAdaptation where
  own_culture : ConfigVal
  adaptation_level : ConfigVal
  detect_culture : ConfigVal
  deriving DecidableEq

/-- The `TemporalStrategy` constructor call, by its arguments. -/
structure TemporalStrategy where
  discount_factor : ConfigVal
  reputation_weight : ConfigVal
  relationship_investment_threshold : ConfigVal
  deriving DecidableEq

/-- The `SwarmIntelligence` constructor call, by its arguments. -/
structure SwarmIntelligence where
  consensus_threshold : ConfigVal
  max_iterations : ConfigVal
  enable_sub_agents : ConfigVal
  deriving DecidableEq

/-- The `UncertaintyAware` constructor call, by its arguments. -/
structure UncertaintyAware where
  confidence_threshold : ConfigVal
  risk_tolerance : ConfigVal
  information_gathering_budget : ConfigVal
  deriving DecidableEq

/-- The `StrategyEvolution` constructor call, by its arguments. -/
structure StrategyEvolution where
  population_size : ConfigVal
  mutation_rate : ConfigVal
  crossover_rate : ConfigVal
  learning_rate : ConfigVal
  deriving DecidableEq

/-- The `TheoryOfMind` constructor call, by its arguments. -/
structure TheoryOfMind where
  max_recursion_depth : ConfigVal
  emotion_sensitivity : ConfigVal
  empathy_level : ConfigVal
  deriving DecidableEq

/-- One constructed extra component. -/
inductive Component
  | cultural (c : CulturalAdaptation)
  | temporal (t : TemporalStrategy)
  | swarm (s : SwarmIntelligence)
  | uncertainty (u : UncertaintyAware)
  | evolution (e : StrategyEvolution)
  | tom (t : TheoryOfMind)
  deriving DecidableEq

/-- The component construction of `Entity.build` (`advanced_negotiator.py`,
lines 81-143): for each of the six recognized module names present in the
parsed module list, the configuration dictionary of that module is read
(empty if absent) and the component is constructed with each argument looked
up under its key with the documented default.  This is the
`CulturalAdaptation` construction, lines 84-92. -/
def mkCulturalAdaptation (config : ModuleConfig) : Component :=
  .cultural
    ⟨pyDictGet config "own_culture" (.str "western_business"),
     pyDictGet config "adaptation_level" (.num (7/10)),
     pyDictGet config "detect_culture" (.boolean true)⟩

/-- The `TemporalStrategy` construction of `Entity.build`, lines 94-102. -/
def mkTemporalStrategy (config : ModuleConfig) : Component :=
  .temporal
    ⟨pyDictGet config "discount_factor" (.num (9/10)),
     pyDictGet config "reputation_weight" (.num (3/10)),
     pyDictGet config "relationship_investment_threshold" (.num (6/10))⟩

/-- The `SwarmIntelligence` construction of `Entity.build`, lines 104-112. -/
def mkSwarmIntelligence (config : ModuleConfig) : Component :=
  .swarm
    ⟨pyDictGet config "consensus_threshold" (.num (7/10)),
     pyDictGet config "max_iterations" (.num 3),
     pyDictGet config "enable_sub_agents" .null⟩

/-- The `UncertaintyAware` construction of `Entity.build`, lines 114-122. -/
def mkUncertaintyAware (config : ModuleConfig) : Component :=
  .uncertainty
    ⟨pyDictGet config "confidence_threshold" (.num (7/10)),
     pyDictGet config "risk_tolerance" (.num (3/10)),
     pyDictGet config "information_gathering_budget" (.num (1/10))⟩

/-- The `StrategyEvolution` construction of `Entity.build`, lines 124-133. -/
def mkStrategyEvolution (config : ModuleConfig) : Component :=
  .evolution
    ⟨pyDictGet config "population_size" (.num 20),
     pyDictGet config "mutation_rate" (.num (1/10)),
     pyDictGet config "crossover_rate" (.num (7/10)),
     pyDictGet config "learning_rate" (.num (1/100))⟩

/-- The `TheoryOfMind` construction of `Entity.build`, lines 135-143. -/
def mkTheoryOfMind (config : ModuleConfig) : Component :=
  .tom
    ⟨pyDictGet config "max_recursion_depth" (.num 3),
     pyDictGet config "emotion_sensitivity" (.num (7/10)),
     pyDictGet config "empathy_level" (.num (8/10))⟩

/-- The component-building loop body of `Entity.build`, assembled in source
order. -/
def buildExtraComponents (modules : List (List Char))
    (module_configs : ModuleConfigs) : List (String × Component) :=
  (if modules.contains "cultural_adaptation".toList then
    [("CulturalAdaptation",
      mkCulturalAdaptation (pyDictGet module_configs "cultural_adaptation" []))]
  else []) ++
  (if modules.contains "temporal_strategy".toList then
    [("TemporalStrategy",
      mkTemporalStrategy (pyDictGet module_configs "temporal_strategy" []))]
  else []) ++
  (if modules.contains "swarm_intelligence".toList then
    [("SwarmIntelligence",
      mkSwarmIntelligence (pyDictGet module_configs "swarm_intelligence" []))]
  else []) ++
  (if modules.contains "uncertainty_aware".toList then
    [("UncertaintyAware",
      mkUncertaintyAware (pyDictGet module_configs "uncertainty_aware" []))]
  else []) ++
  (if modules.contains "strategy_evolution".toList then
    [("StrategyEvolution",
      mkStrategyEvolution (pyDictGet module_configs "strategy_evolution" []))]
  else []) ++
  (if modules.contains "theory_of_mind".toList then
    [("TheoryOfMind",
      mkTheoryOfMind (pyDictGet module_configs "theory_of_mind" []))]
  else [])

/-- `Entity.build` of `advanced_negotiator.py`, up to the extra-components
mapping it hands to the base negotiator: parse the module list from the
`modules` parameter, fall back to the empty configuration when `json.loads`
of `module_configs` fails (`none`), and build the selected components.  The
base negotiator consumes the result deterministically, so two builds with
equal extra-components mappings behave identically. -/
def Entity_build (modules_str : List Char)
    (module_configs : Option ModuleConfigs) : List (String × Component) :=
  buildExtraComponents (parseModules modules_str) (module_configs.getD [])

/-- The six module names recognized by `Entity.build`. -/
def recognizedModules : List String :=
  ["cultural_adaptation", "temporal_strategy", "swarm_intelligence",
   "uncertainty_aware", "strategy_evolution", "theory_of_mind"]

/-- The configuration keys read by `Entity.build` for each recognized module
name (empty for any other name, whose configuration is never read). -/
def recognizedKeys (nm : String) : List String :=
  if nm = "cultural_adaptation" then
    ["own_culture", "adaptation_level", "detect_culture"]
  else if nm = "temporal_strategy" then
    ["discount_factor", "reputation_weight",
     "relationship_investment_threshold"]
  else if nm = "swarm_intelligence" then
    ["consensus_threshold", "max_iterations", "enable_sub_agents"]
  else if nm = "uncertainty_aware" then
    ["confidence_threshold", "risk_tolerance", "information_gathering_budget"]
  else if nm = "strategy_evolution" then
    ["population_size", "mutation_rate", "crossover_rate", "learning_rate"]
  else if nm = "theory_of_mind" then
    ["max_recursion_depth", "emotion_sensitivity", "empathy_level"]
  else []

/-- The extra components with every constructor argument at its documented
default, for a given parsed module list: spelled out explicitly for
comparison with what `Entity.build` produces under an empty configuration. -/
def allDefaults (modules : List (List Char)) : List (String × Component) :=
  (if modules.contains "cultural_adaptation".toList then
    [("CulturalAdaptation", Component.cultural
      ⟨.str "western_business", .num (7/10), .boolean true⟩)]
  else []) ++
  (if modules.contains "temporal_strategy".toList then
    [("TemporalStrategy", Component.temporal
      ⟨.num (9/10), .num (3/10), .num (6/10)⟩)]
  else []) ++
  (if modules.contains "swarm_intelligence".toList then
    [("SwarmIntelligence", Component.swarm
      ⟨.num (7/10), .num 3, .null⟩)]
  else []) ++
  (if modules.contains "uncertainty_aware".toList then
    [("UncertaintyAware", Component.uncertainty
      ⟨.num (7/10), .num (3/10), .num (1/10)⟩)]
  else []) ++
  (if modules.contains "strategy_evolution".toList then
    [("StrategyEvolution", Component.evolution
      ⟨.num 20, .num (1/10), .num (7/10), .num (1/100)⟩)]
  else []) ++
  (if modules.contains "theory_of_mind".toList then
    [("TheoryOfMind", Component.tom
      ⟨.num 3, .num (7/10), .num (8/10)⟩)]
  else [])

/-! ## Theorems -/

/-- Claim C2: for every value, `evaluate_offer` returns "excellent" when the
value reaches the target, "acceptable" when it lies between the reservation
value (inclusive) and the target, and "unacceptable" strictly below the
reservation value; at exactly the reservation value the result is
"acceptable". -/
theorem evaluate_offer_boundary (reservation target v : ℚ)
    (h : reservation ≤ target) :
    (target ≤ v → evaluate_offer reservation target v = "excellent") ∧
    (reservation ≤ v → v < target →
      evaluate_offer reservation target v = "acceptable") ∧
    (v < reservation → evaluate_offer reservation target v = "unacceptable") := by
  refine ⟨fun hv => ?_, fun h1 h2 => ?_, fun hv => ?_⟩ <;>
    simp only [evaluate_offer]
  · rw [if_pos hv]
  · rw [if_neg (by linarith), if_pos h1]
  · rw [if_neg (by linarith), if_neg (by linarith)]

/-- Witness for C2 at the values of the component test: reservation 100,
target 200; an offer of exactly 100 is acceptable, 250 excellent, 50
unacceptable. -/
theorem evaluate_offer_boundary_witness :
    (100 : ℚ) ≤ 200 ∧
    evaluate_offer 100 200 100 = "acceptable" ∧
    evaluate_offer 100 200 250 = "excellent" ∧
    evaluate_offer 100 200 50 = "unacceptable" :=
  ⟨by norm_num,
   (evaluate_offer_boundary 100 200 100 (by norm_num)).2.1 (by norm_num)
     (by norm_num),
   (evaluate_offer_boundary 100 200 250 (by norm_num)).1 (by norm_num),
   (evaluate_offer_boundary 100 200 50 (by norm_num)).2.2 (by norm_num)⟩

/-- Claim C3: for a positive initial concession and a decay factor strictly
between 0 and 1, the concession amount is non-increasing in the round index
(indeed strictly decreasing), the earlier concession strictly exceeds the
later one, and every concession before the final round is strictly
positive. -/
theorem concession_amount_monotone (initial decay : ℚ) (r1 r2 M : ℕ)
    (hi : 0 < initial) (hd0 : 0 < decay) (hd1 : decay < 1)
    (h12 : r1 < r2) (h2M : r2 < M) :
    concession_amount initial decay r2 M ≤
      concession_amount initial decay r1 M ∧
    concession_amount initial decay r2 M <
      concession_amount initial decay r1 M ∧
    0 < concession_amount initial decay r1 M ∧
    0 < concession_amount initial decay r2 M := by
  have hpow : decay ^ r2 < decay ^ r1 :=
    pow_lt_pow_right_of_lt_one hd0 hd1 h12
  have hlt : concession_amount initial decay r2 M <
      concession_amount initial decay r1 M := by
    unfold concession_amount
    exact mul_lt_mul_of_pos_left hpow hi
  refine ⟨le_of_lt hlt, hlt, ?_, ?_⟩ <;>
    exact mul_pos hi (pow_pos hd0 _)

/-- Witness for C3 at the values of the component test: rounds 1 and 4 of a
5-round schedule, with initial concession 10 and decay one half. -/
theorem concession_amount_monotone_witness :
    (0 : ℚ) < 10 ∧ (0 : ℚ) < 1/2 ∧ (1 : ℚ)/2 < 1 ∧ 1 < 4 ∧ 4 < 5 ∧
    concession_amount 10 (1/2) 4 5 ≤ concession_amount 10 (1/2) 1 5 ∧
    concession_amount 10 (1/2) 4 5 < concession_amount 10 (1/2) 1 5 ∧
    0 < concession_amount 10 (1/2) 1 5 ∧
    0 < concession_amount 10 (1/2) 4 5 := by
  refine ⟨by norm_num, by norm_num, by norm_num, by norm_num, by norm_num, ?_⟩
  exact concession_amount_monotone 10 (1/2) 1 4 5 (by norm_num) (by norm_num)
    (by norm_num) (by norm_num) (by norm_num)

/-- Claim C6: for every pair of catalogued cultural profiles the distance is
symmetric, and the distance of every catalogued profile to itself is zero. -/
theorem cultural_distance_symm (A B : CulturalProfile)
    (hA : A ∈ CULTURAL_PROFILES.map Prod.snd)
    (hB : B ∈ CULTURAL_PROFILES.map Prod.snd) :
    get_distance_from A B = get_distance_from B A ∧
    get_distance_from A A = 0 := by
  constructor
  · unfold get_distance_from
    rw [abs_sub_comm A.directness, abs_sub_comm A.formality,
      abs_sub_comm A.risk_tolerance]
  · unfold get_distance_from
    simp

/-- Witness for C6 at the two profiles of the component test: the
western-business and east-asian catalogue entries. -/
theorem cultural_distance_symm_witness :
    westernBusinessProfile ∈ CULTURAL_PROFILES.map Prod.snd ∧
    eastAsianProfile ∈ CULTURAL_PROFILES.map Prod.snd ∧
    get_distance_from westernBusinessProfile eastAsianProfile =
      get_distance_from eastAsianProfile westernBusinessProfile ∧
    get_distance_from westernBusinessProfile westernBusinessProfile = 0 :=
  ⟨by simp [CULTURAL_PROFILES], by simp [CULTURAL_PROFILES],
   (cultural_distance_symm westernBusinessProfile eastAsianProfile
     (by simp [CULTURAL_PROFILES]) (by simp [CULTURAL_PROFILES])).1,
   (cultural_distance_symm westernBusinessProfile eastAsianProfile
     (by simp [CULTURAL_PROFILES]) (by simp [CULTURAL_PROFILES])).2⟩

/-- Claim C1: recording an agreement concludes the negotiation, and on a
concluded state every further sequence of orchestrator steps leaves the
history unchanged, reports the negotiation as concluded, and never leaves the
concluded phase. -/
theorem orchestrator_concluded_frozen (s : NegotiationState)
    (h : s.phase = .concluded) (acts : List RoundAction) :
    get_history (acts.foldl step s) = get_history s ∧
    is_concluded (acts.foldl step s) = true ∧
    (acts.foldl step s).phase = .concluded ∧
    (∀ s' parties terms,
      (step s' (.accept parties terms)).phase = .concluded) := by
  have hstep : ∀ a, step s a = s := by
    intro a
    unfold step
    rw [if_pos h]
  have key : acts.foldl step s = s := by
    induction acts with
    | nil => rfl
    | cons a rest ih =>
      simp only [List.foldl, hstep]
      exact ih
  rw [key]
  refine ⟨rfl, by simp [is_concluded, h], h, ?_⟩
  intro s' parties terms
  unfold step
  by_cases h' : s'.phase = .concluded
  · rw [if_pos h']
    exact h'
  · rw [if_neg h']

/-- Witness for C1: a concrete concluded state with a recorded agreement,
followed by an offer, an acceptance and a withdrawal, leaves history, phase
and conclusion flag untouched. -/
theorem orchestrator_concluded_frozen_witness :
    (⟨[.agreementEvent ⟨["Alice", "Bob"], [("price", "150")], 3⟩], 3,
        .concluded, some ⟨["Alice", "Bob"], [("price", "150")], 3⟩,
        8⟩ : NegotiationState).phase = .concluded ∧
    get_history
        ([RoundAction.makeOffer ⟨"Alice", "Bob", [("price", "120")], "counter", 4⟩,
          RoundAction.accept ["Alice", "Bob"] [("price", "120")],
          RoundAction.withdraw "Bob"].foldl step
          ⟨[.agreementEvent ⟨["Alice", "Bob"], [("price", "150")], 3⟩], 3,
            .concluded, some ⟨["Alice", "Bob"], [("price", "150")], 3⟩, 8⟩) =
      get_history
        ⟨[.agreementEvent ⟨["Alice", "Bob"], [("price", "150")], 3⟩], 3,
          .concluded, some ⟨["Alice", "Bob"], [("price", "150")], 3⟩, 8⟩ ∧
    is_concluded
        ([RoundAction.makeOffer ⟨"Alice", "Bob", [("price", "120")], "counter", 4⟩,
          RoundAction.accept ["Alice", "Bob"] [("price", "120")],
          RoundAction.withdraw "Bob"].foldl step
          ⟨[.agreementEvent ⟨["Alice", "Bob"], [("price", "150")], 3⟩], 3,
            .concluded, some ⟨["Alice", "Bob"], [("price", "150")], 3⟩, 8⟩) =
      true := by
  refine ⟨rfl, ?_, ?_⟩
  · exact (orchestrator_concluded_frozen _ rfl _).1
  · exact (orchestrator_concluded_frozen _ rfl _).2.1

/-- Claim C4: the first numeric claim of a participant on a topic is stored
and never yields a deception indicator; a later claim on the same topic
yields an indicator referencing both rounds exactly when it differs from the
stored value beyond the relative tolerance, and otherwise yields none. -/
theorem check_consistency_spec (tol : ℚ) (st : List TopicClaim)
    (p t : String) (v : ℚ) (r : ℕ) :
    (findClaim st p t = none →
      (check_consistency tol st p t v r).1 = none ∧
      findClaim (check_consistency tol st p t v r).2 p t = some ⟨p, t, v, r⟩) ∧
    (∀ prev, findClaim st p t = some prev →
      ((check_consistency tol st p t v r).1 = some ⟨p, t, prev.round, r⟩ ↔
        tol * |prev.value| < |v - prev.value|) ∧
      (¬ tol * |prev.value| < |v - prev.value| →
        (check_consistency tol st p t v r).1 = none)) := by
  constructor
  · intro hnone
    unfold check_consistency
    rw [hnone]
    refine ⟨rfl, ?_⟩
    unfold findClaim
    simp [List.find?]
  · intro prev hprev
    unfold check_consistency
    rw [hprev]
    dsimp only
    by_cases hc : tol * |prev.value| < |v - prev.value|
    · rw [if_pos hc]
      exact ⟨by simp [hc], fun h => absurd hc h⟩
    · rw [if_neg hc]
      refine ⟨?_, fun _ => rfl⟩
      simp [hc]

/-- Witness for C4 at the values of the component test: Bob claims 500 at
round 1 (stored, no flag), then 300 at round 2 (flagged, referencing rounds
1 and 2), whereas 495 at round 2 would stay within the tolerance of one
tenth (no flag). -/
theorem check_consistency_spec_witness :
    (check_consistency (1/10) [] "Bob" "budget" 500 1).1 = none ∧
    findClaim (check_consistency (1/10) [] "Bob" "budget" 500 1).2
      "Bob" "budget" = some ⟨"Bob", "budget", 500, 1⟩ ∧
    (check_consistency (1/10) [⟨"Bob", "budget", 500, 1⟩]
        "Bob" "budget" 300 2).1 = some ⟨"Bob", "budget", 1, 2⟩ ∧
    (check_consistency (1/10) [⟨"Bob", "budget", 500, 1⟩]
        "Bob" "budget" 495 2).1 = none := by
  refine ⟨((check_consistency_spec (1/10) [] "Bob" "budget" 500 1).1
      (by decide)).1,
    ((check_consistency_spec (1/10) [] "Bob" "budget" 500 1).1
      (by decide)).2, ?_, ?_⟩
  · exact ((check_consistency_spec (1/10) [⟨"Bob", "budget", 500, 1⟩]
      "Bob" "budget" 300 2).2 ⟨"Bob", "budget", 500, 1⟩ (by decide)).1.mpr
      (by norm_num)
  · exact ((check_consistency_spec (1/10) [⟨"Bob", "budget", 500, 1⟩]
      "Bob" "budget" 495 2).2 ⟨"Bob", "budget", 500, 1⟩ (by decide)).2
      (by norm_num)

/-- After a registration, looking the same name up finds the just-registered
factory. -/
theorem create_register_self {α : Type} (reg : List (String × (Unit → α)))
    (nm : String) (f : Unit → α) :
    create_module (register reg nm f) nm = some (f ()) := by
  unfold register create_module
  by_cases h : reg.any (fun e => e.1 == nm)
  · rw [if_pos h]
    induction reg with
    | nil => simp at h
    | cons e rest ih =>
      by_cases he : e.1 == nm
      · simp [List.find?, he]
      · have he' : (e.1 == nm) = false := by simpa using he
        simp only [List.any_cons, he', Bool.false_or] at h
        rw [List.map_cons, if_neg (by simp [he']),
          List.find?_cons_of_neg _ (by simp [he'])]
        exact ih h
  · rw [if_neg h]
    induction reg with
    | nil => simp [List.find?]
    | cons e rest ih =>
      simp only [List.any_cons, Bool.or_eq_true, not_or] at h
      simp only [List.cons_append, List.find?, Bool.not_eq_true] at *
      rw [h.1]
      exact ih h.2

/-- Claim C5: registering a name twice overwrites the factory (last write
wins, no error), so creation produces an instance built by the second
factory; creating an unregistered name yields the "not found" result `none`
and, being a total function, never raises. -/
theorem registry_last_write_wins {α : Type} :
    (∀ (reg : List (String × (Unit → α))) (nm : String) (f g : Unit → α),
      create_module (register (register reg nm f) nm g) nm = some (g ())) ∧
    (∀ (reg : List (String × (Unit → α))) (nm : String),
      (∀ e ∈ reg, e.1 ≠ nm) → create_module reg nm = none) := by
  constructor
  · intro reg nm f g
    exact create_register_self (register reg nm f) nm g
  · intro reg nm h
    unfold create_module
    rw [List.find?_eq_none.mpr]
    · rfl
    · intro e he
      simpa using h e he

/-- Witness for C5: registering the name "social_intelligence" twice on the
empty registry creates the instance of the second factory, and creating the
name "unregistered" on a one-entry registry yields `none`. -/
theorem registry_last_write_wins_witness :
    create_module
      (register (register ([] : List (String × (Unit → ℕ)))
        "social_intelligence" (fun _ => 1)) "social_intelligence"
        (fun _ => 2)) "social_intelligence" = some 2 ∧
    create_module [("social_intelligence", fun _ => (1 : ℕ))]
      "unregistered" = none := by
  constructor
  · exact (registry_last_write_wins (α := ℕ)).1 [] "social_intelligence"
      (fun _ => 1) (fun _ => 2)
  · exact (registry_last_write_wins (α := ℕ)).2
      [("social_intelligence", fun _ => 1)] "unregistered"
      (by intro e he; simp at he; subst he; decide)

/-- The fitness of the running best never drops below the starting
fitness. -/
theorem bestOf_fitness_le (l : List StrategyGenome) :
    ∀ g0 : StrategyGenome, g0.fitness ≤ (bestOf g0 l).fitness := by
  induction l with
  | nil => intro g0; exact le_refl _
  | cons x rest ih =>
    intro g0
    have h1 : g0.fitness ≤ (if g0.fitness < x.fitness then x else g0).fitness := by
      by_cases hx : g0.fitness < x.fitness
      · rw [if_pos hx]; exact le_of_lt hx
      · rw [if_neg hx]
    exact le_trans h1 (ih _)

/-- Claim C7: one generation of the strategy-evolution engine keeps the
population size constant (the elite plus one offspring per remaining slot),
and since the single best genome of the prior generation survives
unconditionally with its fitness, the best fitness of the new generation is
never worse than that of the prior one. -/
theorem evolution_generation_spec (g0 : StrategyGenome)
    (rest : List StrategyGenome) (learning_rate : ℚ)
    (draws : List OffspringDraw) (score : List ℚ → ℚ)
    (hlen : draws.length + 1 = (g0 :: rest).length) :
    (nextGeneration (g0 :: rest) learning_rate draws score).length =
      (g0 :: rest).length ∧
    ∃ b offspring,
      nextGeneration (g0 :: rest) learning_rate draws score = b :: offspring ∧
      (bestOf g0 rest).fitness ≤ (bestOf b offspring).fitness := by
  have hng : nextGeneration (g0 :: rest) learning_rate draws score =
      bestOf g0 rest :: draws.map (fun d =>
        let genes := makeOffspring (g0 :: rest) learning_rate d
        ⟨genes, score genes⟩) := rfl
  constructor
  · rw [hng, List.length_cons, List.length_map, hlen]
  · refine ⟨bestOf g0 rest, _, hng, ?_⟩
    exact bestOf_fitness_le _ _

/-- Witness for C7: a two-genome population with fitness 5 and 3 and one
offspring draw keeps size two, and the new best fitness is at least 5. -/
theorem evolution_generation_spec_witness :
    ([⟨0, 0, false, 0, []⟩] : List OffspringDraw).length + 1 =
      ([⟨[1], 5⟩, ⟨[2], 3⟩] : List StrategyGenome).length ∧
    (nextGeneration [⟨[1], 5⟩, ⟨[2], 3⟩] (1/100) [⟨0, 0, false, 0, []⟩]
        (fun _ => 0)).length = 2 ∧
    ∃ b offspring,
      nextGeneration [⟨[1], 5⟩, ⟨[2], 3⟩] (1/100) [⟨0, 0, false, 0, []⟩]
          (fun _ => 0) = b :: offspring ∧
      (bestOf ⟨[1], 5⟩ [⟨[2], 3⟩]).fitness ≤ (bestOf b offspring).fitness := by
  refine ⟨rfl, ?_, ?_⟩
  · exact (evolution_generation_spec ⟨[1], 5⟩ [⟨[2], 3⟩] (1/100)
      [⟨0, 0, false, 0, []⟩] (fun _ => 0) rfl).1
  · exact (evolution_generation_spec ⟨[1], 5⟩ [⟨[2], 3⟩] (1/100)
      [⟨0, 0, false, 0, []⟩] (fun _ => 0) rfl).2

/-- The plurality walk returns its base choice when every candidate equals
it. -/
theorem pluralityFrom_const (recs : List (String × ℚ)) (c : String) :
    ∀ cs : List String, (∀ x ∈ cs, x = c) → pluralityFrom recs c cs = c := by
  intro cs
  induction cs with
  | nil => intro _; rfl
  | cons x rest ih =>
    intro h
    have hx : x = c := h x (List.mem_cons_self x rest)
    subst hx
    simp only [pluralityFrom, ite_self]
    exact ih (fun y hy => h y (List.mem_cons_of_mem x hy))

/-- A unanimous recommendation set has its common choice as plurality. -/
theorem plurality_unanimous (recs : List (String × ℚ)) (c : String)
    (hne : recs ≠ []) (hall : ∀ e ∈ recs, e.1 = c) :
    plurality recs = some c := by
  match recs with
  | [] => exact absurd rfl hne
  | e :: rest =>
    have he : e.1 = c := hall e (List.mem_cons_self e rest)
    simp only [plurality, he]
    rw [pluralityFrom_const]
    intro x hx
    simp only [List.mem_map] at hx
    obtain ⟨y, hy, hyx⟩ := hx
    rw [← hyx]
    exact hall y hy

/-- On a unanimous recommendation set the common choice carries the whole
weight. -/
theorem choiceWeight_unanimous (c : String) :
    ∀ recs : List (String × ℚ), (∀ e ∈ recs, e.1 = c) →
      choiceWeight recs c = totalWeight recs := by
  intro recs
  induction recs with
  | nil => intro _; rfl
  | cons e rest ih =>
    intro h
    have he : (e.1 == c) = true := by
      rw [h e (List.mem_cons_self e rest)]
      exact beq_self_eq_true c
    have hrest := ih (fun y hy => h y (List.mem_cons_of_mem e hy))
    unfold choiceWeight totalWeight
    rw [show (e :: rest).filter (fun x => x.1 == c) =
      e :: rest.filter (fun x => x.1 == c) from by
        simp [List.filter_cons, he]]
    simp only [List.map_cons, List.sum_cons]
    unfold choiceWeight totalWeight at hrest
    rw [hrest]

/-- A nonempty recommendation set always has a plurality choice. -/
theorem plurality_of_ne_nil (recs : List (String × ℚ)) (hne : recs ≠ []) :
    ∃ c, plurality recs = some c := by
  match recs with
  | [] => exact absurd rfl hne
  | e :: rest => exact ⟨_, rfl⟩

/-- Each revision step shifts the recommendation sequence by one. -/
theorem recsSeq_shift (revise : ℕ → List (String × ℚ) → List (String × ℚ))
    (start : ℕ) (recs : List (String × ℚ)) :
    ∀ k, recsSeq revise (start + 1) (revise start recs) k =
      recsSeq revise start recs (k + 1) := by
  intro k
  induction k with
  | zero => simp [recsSeq]
  | succ k ih =>
    show revise (start + 1 + k) (recsSeq revise (start + 1) (revise start recs) k) =
      revise (start + (k + 1)) (recsSeq revise start recs (k + 1))
    rw [ih, Nat.add_assoc, Nat.add_comm 1 k]

/-- Revisions that preserve nonemptiness keep the whole sequence nonempty. -/
theorem recsSeq_ne_nil (revise : ℕ → List (String × ℚ) → List (String × ℚ))
    (start : ℕ) (recs : List (String × ℚ)) (hne : recs ≠ [])
    (hrev : ∀ i rs, rs ≠ [] → revise i rs ≠ []) :
    ∀ k, recsSeq revise start recs k ≠ [] := by
  intro k
  induction k with
  | zero => exact hne
  | succ k ih => exact hrev _ _ ih

/-- With a positive iteration budget and nonemptiness-preserving revisions
the consensus loop always returns a decision. -/
theorem consensusLoop_total (revise : ℕ → List (String × ℚ) → List (String × ℚ))
    (threshold : ℚ) :
    ∀ fuel iter recs, 1 ≤ fuel → recs ≠ [] →
      (∀ i rs, rs ≠ [] → revise i rs ≠ []) →
      ∃ c n, consensusLoop revise threshold fuel iter recs = some (c, n) := by
  intro fuel
  induction fuel with
  | zero => intro iter recs h; omega
  | succ f ih =>
    intro iter recs _ hne hrev
    obtain ⟨c, hc⟩ := plurality_of_ne_nil recs hne
    simp only [consensusLoop]
    rw [hc]
    dsimp only
    by_cases ht : threshold ≤ choiceWeight recs c / totalWeight recs
    · rw [if_pos ht]
      exact ⟨c, iter, rfl⟩
    · rw [if_neg ht]
      by_cases hf : f = 0
      · rw [if_pos hf]
        exact ⟨c, iter, rfl⟩
      · rw [if_neg hf]
        exact ih (iter + 1) (revise iter recs) (by omega)
          (hrev iter recs hne) hrev

/-- When no iteration within the budget reaches the threshold, the loop
returns the plurality of the final round at the final iteration index. -/
theorem consensusLoop_fallback
    (revise : ℕ → List (String × ℚ) → List (String × ℚ)) (threshold : ℚ) :
    ∀ fuel iter recs c, 1 ≤ fuel → recs ≠ [] →
      (∀ i rs, rs ≠ [] → revise i rs ≠ []) →
      (∀ k, k < fuel →
        agreementFraction (recsSeq revise iter recs k) < threshold) →
      plurality (recsSeq revise iter recs (fuel - 1)) = some c →
      consensusLoop revise threshold fuel iter recs =
        some (c, iter + (fuel - 1)) := by
  intro fuel
  induction fuel with
  | zero => intro iter recs c h; omega
  | succ f ih =>
    intro iter recs c _ hne hrev hk hplur
    obtain ⟨c0, hc0⟩ := plurality_of_ne_nil recs hne
    have hfrac : agreementFraction recs < threshold := hk 0 (by omega)
    rw [show agreementFraction recs =
        choiceWeight recs c0 / totalWeight recs by
      unfold agreementFraction; rw [hc0]] at hfrac
    simp only [consensusLoop]
    rw [hc0]
    dsimp only
    rw [if_neg (not_le.mpr hfrac)]
    by_cases hf : f = 0
    · subst hf
      rw [if_pos rfl]
      have : plurality recs = some c := hplur
      rw [hc0] at this
      obtain rfl : c0 = c := Option.some.inj this
      rfl
    · rw [if_neg hf]
      have hres := ih (iter + 1) (revise iter recs) c (by omega)
        (hrev iter recs hne) hrev
        (fun k hkf => by
          rw [recsSeq_shift]
          exact hk (k + 1) (by omega))
        (by
          rw [recsSeq_shift]
          have hgoal : f - 1 + 1 = f + 1 - 1 := by omega
          rw [hgoal]
          exact hplur)
      rw [hres]
      have : iter + 1 + (f - 1) = iter + (f + 1 - 1) := by omega
      rw [this]

/-- Claim C8: with a positive iteration budget and nonemptiness-preserving
revisions, the swarm-consensus engine always returns a decision; a
recommendation set that is unanimous from iteration 1 with positive total
weight is returned after exactly one iteration for every threshold at most 1
and regardless of the budget; and when no iteration reaches the threshold,
the plurality choice of the final round is returned at the final
iteration. -/
theorem swarm_consensus_spec
    (revise : ℕ → List (String × ℚ) → List (String × ℚ)) (threshold : ℚ)
    (max_iterations : ℕ) (recs : List (String × ℚ))
    (hiter : 1 ≤ max_iterations) (hne : recs ≠ [])
    (hrev : ∀ i rs, rs ≠ [] → revise i rs ≠ []) :
    (∀ c, (∀ e ∈ recs, e.1 = c) → 0 < totalWeight recs → threshold ≤ 1 →
      reach_consensus revise threshold max_iterations recs = some (c, 1)) ∧
    (∃ c n, reach_consensus revise threshold max_iterations recs =
      some (c, n)) ∧
    ((∀ k, k < max_iterations →
        agreementFraction (recsSeq revise 1 recs k) < threshold) →
      ∃ c, plurality (recsSeq revise 1 recs (max_iterations - 1)) = some c ∧
        reach_consensus revise threshold max_iterations recs =
          some (c, max_iterations)) := by
  obtain ⟨f, rfl⟩ : ∃ f, max_iterations = f + 1 :=
    ⟨max_iterations - 1, by omega⟩
  refine ⟨?_, ?_, ?_⟩
  · intro c hall htw hth
    have hplur := plurality_unanimous recs c hne hall
    have hcw := choiceWeight_unanimous c recs hall
    unfold reach_consensus
    simp only [consensusLoop]
    rw [hplur]
    dsimp only
    rw [if_pos]
    rw [hcw, div_self (ne_of_gt htw)]
    exact hth
  · exact consensusLoop_total revise threshold (f + 1) 1 recs (by omega)
      hne hrev
  · intro hk
    have hne' := recsSeq_ne_nil revise 1 recs hne hrev (f + 1 - 1)
    obtain ⟨c, hc⟩ := plurality_of_ne_nil _ hne'
    refine ⟨c, hc, ?_⟩
    have := consensusLoop_fallback revise threshold (f + 1) 1 recs c
      (by omega) hne hrev hk hc
    unfold reach_consensus
    rw [this]
    have harith : 1 + (f + 1 - 1) = f + 1 := by omega
    rw [harith]

/-- Witness for C8: three sub-agents unanimously recommending "accept" with
weights summing to 3, threshold seven tenths, budget 5: the engine decides
"accept" at exactly iteration 1. -/
theorem swarm_consensus_spec_witness :
    (1 ≤ 5 ∧ ([("accept", (1 : ℚ)), ("accept", 1), ("accept", 1)] :
      List (String × ℚ)) ≠ []) ∧
    reach_consensus (fun _ rs => rs) (7/10) 5
      [("accept", 1), ("accept", 1), ("accept", 1)] = some ("accept", 1) := by
  refine ⟨⟨by omega, by decide⟩, ?_⟩
  exact (swarm_consensus_spec (fun _ rs => rs) (7/10) 5
      [("accept", 1), ("accept", 1), ("accept", 1)] (by omega) (by decide)
      (fun i rs h => h)).1 "accept" (by decide) (by norm_num [totalWeight])
      (by norm_num)

/-- A dictionary read finds the value stored at the head key. -/
theorem pyDictGet_cons_eq {α : Type} (kk : String) (c : α)
    (d : List (String × α)) (dflt : α) :
    pyDictGet ((kk, c) :: d) kk dflt = c := by
  unfold pyDictGet
  rw [List.find?_cons_of_pos _ (by simp)]

/-- A dictionary read skips a head entry under a different key. -/
theorem pyDictGet_cons_ne {α : Type} (j kk : String) (h : j ≠ kk) (c : α)
    (d : List (String × α)) (dflt : α) :
    pyDictGet ((j, c) :: d) kk dflt = pyDictGet d kk dflt := by
  unfold pyDictGet
  rw [List.find?_cons_of_neg _ (by simp [h])]

/-- The `CulturalAdaptation` construction ignores keys it does not read. -/
theorem mkCulturalAdaptation_shadow (k : String) (v : ConfigVal)
    (cfg : ModuleConfig) (h1 : k ≠ "own_culture")
    (h2 : k ≠ "adaptation_level") (h3 : k ≠ "detect_culture") :
    mkCulturalAdaptation ((k, v) :: cfg) = mkCulturalAdaptation cfg := by
  unfold mkCulturalAdaptation
  rw [pyDictGet_cons_ne _ _ h1, pyDictGet_cons_ne _ _ h2,
    pyDictGet_cons_ne _ _ h3]

/-- The `TemporalStrategy` construction ignores keys it does not read. -/
theorem mkTemporalStrategy_shadow (k : String) (v : ConfigVal)
    (cfg : ModuleConfig) (h1 : k ≠ "discount_factor")
    (h2 : k ≠ "reputation_weight")
    (h3 : k ≠ "relationship_investment_threshold") :
    mkTemporalStrategy ((k, v) :: cfg) = mkTemporalStrategy cfg := by
  unfold mkTemporalStrategy
  rw [pyDictGet_cons_ne _ _ h1, pyDictGet_cons_ne _ _ h2,
    pyDictGet_cons_ne _ _ h3]

/-- The `SwarmIntelligence` construction ignores keys it does not read. -/
theorem mkSwarmIntelligence_shadow (k : String) (v : ConfigVal)
    (cfg : ModuleConfig) (h1 : k ≠ "consensus_threshold")
    (h2 : k ≠ "max_iterations") (h3 : k ≠ "enable_sub_agents") :
    mkSwarmIntelligence ((k, v) :: cfg) = mkSwarmIntelligence cfg := by
  unfold mkSwarmIntelligence
  rw [pyDictGet_cons_ne _ _ h1, pyDictGet_cons_ne _ _ h2,
    pyDictGet_cons_ne _ _ h3]

/-- The `UncertaintyAware` construction ignores keys it does not read. -/
theorem mkUncertaintyAware_shadow (k : String) (v : ConfigVal)
    (cfg : ModuleConfig) (h1 : k ≠ "confidence_threshold")
    (h2 : k ≠ "risk_tolerance") (h3 : k ≠ "information_gathering_budget") :
    mkUncertaintyAware ((k, v) :: cfg) = mkUncertaintyAware cfg := by
  unfold mkUncertaintyAware
  rw [pyDictGet_cons_ne _ _ h1, pyDictGet_cons_ne _ _ h2,
    pyDictGet_cons_ne _ _ h3]

/-- The `StrategyEvolution` construction ignores keys it does not read. -/
theorem mkStrategyEvolution_shadow (k : String) (v : ConfigVal)
    (cfg : ModuleConfig) (h1 : k ≠ "population_size")
    (h2 : k ≠ "mutation_rate") (h3 : k ≠ "crossover_rate")
    (h4 : k ≠ "learning_rate") :
    mkStrategyEvolution ((k, v) :: cfg) = mkStrategyEvolution cfg := by
  unfold mkStrategyEvolution
  rw [pyDictGet_cons_ne _ _ h1, pyDictGet_cons_ne _ _ h2,
    pyDictGet_cons_ne _ _ h3, pyDictGet_cons_ne _ _ h4]

/-- The `TheoryOfMind` construction ignores keys it does not read. -/
theorem mkTheoryOfMind_shadow (k : String) (v : ConfigVal)
    (cfg : ModuleConfig) (h1 : k ≠ "max_recursion_depth")
    (h2 : k ≠ "emotion_sensitivity") (h3 : k ≠ "empathy_level") :
    mkTheoryOfMind ((k, v) :: cfg) = mkTheoryOfMind cfg := by
  unfold mkTheoryOfMind
  rw [pyDictGet_cons_ne _ _ h1, pyDictGet_cons_ne _ _ h2,
    pyDictGet_cons_ne _ _ h3]

/-- The extra components depend on the configuration dictionary only through
the six constructed components. -/
theorem buildExtraComponents_congr (mods : List (List Char))
    (c1 c2 : ModuleConfigs)
    (h1 : mkCulturalAdaptation (pyDictGet c1 "cultural_adaptation" []) =
      mkCulturalAdaptation (pyDictGet c2 "cultural_adaptation" []))
    (h2 : mkTemporalStrategy (pyDictGet c1 "temporal_strategy" []) =
      mkTemporalStrategy (pyDictGet c2 "temporal_strategy" []))
    (h3 : mkSwarmIntelligence (pyDictGet c1 "swarm_intelligence" []) =
      mkSwarmIntelligence (pyDictGet c2 "swarm_intelligence" []))
    (h4 : mkUncertaintyAware (pyDictGet c1 "uncertainty_aware" []) =
      mkUncertaintyAware (pyDictGet c2 "uncertainty_aware" []))
    (h5 : mkStrategyEvolution (pyDictGet c1 "strategy_evolution" []) =
      mkStrategyEvolution (pyDictGet c2 "strategy_evolution" []))
    (h6 : mkTheoryOfMind (pyDictGet c1 "theory_of_mind" []) =
      mkTheoryOfMind (pyDictGet c2 "theory_of_mind" [])) :
    buildExtraComponents mods c1 = buildExtraComponents mods c2 := by
  unfold buildExtraComponents
  rw [h1, h2, h3, h4, h5, h6]

/-- Claim C9: unparseable module configuration (a `json.loads` failure,
embedded as `none`) makes `Entity.build` behave exactly as with the empty
configuration; with the empty configuration every constructor argument takes
its documented default; an entry under an unrecognized module name is
ignored; and an unrecognized key inside the configuration of a module is
ignored.  In all cases construction succeeds — `Entity_build` is a total
function. -/
theorem build_config_fallback :
    (∀ ms, Entity_build ms none = Entity_build ms (some [])) ∧
    (∀ ms, Entity_build ms (some []) = allDefaults (parseModules ms)) ∧
    (∀ ms cfgs j jc, j ∉ recognizedModules →
      Entity_build ms (some ((j, jc) :: cfgs)) = Entity_build ms (some cfgs)) ∧
    (∀ ms nm cfg cfgs k v, k ∉ recognizedKeys nm →
      Entity_build ms (some ((nm, (k, v) :: cfg) :: cfgs)) =
        Entity_build ms (some ((nm, cfg) :: cfgs))) := by
  refine ⟨fun ms => rfl, fun ms => rfl, ?_, ?_⟩
  · intro ms cfgs j jc hj
    simp only [recognizedModules, List.mem_cons, List.not_mem_nil, or_false,
      not_or] at hj
    obtain ⟨n1, n2, n3, n4, n5, n6⟩ := hj
    unfold Entity_build
    simp only [Option.getD]
    apply buildExtraComponents_congr <;>
      rw [pyDictGet_cons_ne _ _ (by assumption)]
  · intro ms nm cfg cfgs k v hk
    unfold Entity_build
    simp only [Option.getD]
    refine buildExtraComponents_congr _ _ _ ?_ ?_ ?_ ?_ ?_ ?_
    · by_cases hnm : nm = "cultural_adaptation"
      · subst hnm
        rw [pyDictGet_cons_eq, pyDictGet_cons_eq]
        simp [recognizedKeys] at hk
        exact mkCulturalAdaptation_shadow k v cfg hk.1 hk.2.1 hk.2.2
      · rw [pyDictGet_cons_ne _ _ hnm, pyDictGet_cons_ne _ _ hnm]
    · by_cases hnm : nm = "temporal_strategy"
      · subst hnm
        rw [pyDictGet_cons_eq, pyDictGet_cons_eq]
        simp [recognizedKeys] at hk
        exact mkTemporalStrategy_shadow k v cfg hk.1 hk.2.1 hk.2.2
      · rw [pyDictGet_cons_ne _ _ hnm, pyDictGet_cons_ne _ _ hnm]
    · by_cases hnm : nm = "swarm_intelligence"
      · subst hnm
        rw [pyDictGet_cons_eq, pyDictGet_cons_eq]
        simp [recognizedKeys] at hk
        exact mkSwarmIntelligence_shadow k v cfg hk.1 hk.2.1 hk.2.2
      · rw [pyDictGet_cons_ne _ _ hnm, pyDictGet_cons_ne _ _ hnm]
    · by_cases hnm : nm = "uncertainty_aware"
      · subst hnm
        rw [pyDictGet_cons_eq, pyDictGet_cons_eq]
        simp [recognizedKeys] at hk
        exact mkUncertaintyAware_shadow k v cfg hk.1 hk.2.1 hk.2.2
      · rw [pyDictGet_cons_ne _ _ hnm, pyDictGet_cons_ne _ _ hnm]
    · by_cases hnm : nm = "strategy_evolution"
      · subst hnm
        rw [pyDictGet_cons_eq, pyDictGet_cons_eq]
        simp [recognizedKeys] at hk
        exact mkStrategyEvolution_shadow k v cfg hk.1 hk.2.1 hk.2.2.1 hk.2.2.2
      · rw [pyDictGet_cons_ne _ _ hnm, pyDictGet_cons_ne _ _ hnm]
    · by_cases hnm : nm = "theory_of_mind"
      · subst hnm
        rw [pyDictGet_cons_eq, pyDictGet_cons_eq]
        simp [recognizedKeys] at hk
        exact mkTheoryOfMind_shadow k v cfg hk.1 hk.2.1 hk.2.2
      · rw [pyDictGet_cons_ne _ _ hnm, pyDictGet_cons_ne _ _ hnm]

/-- Witness for C9 on the module list "theory_of_mind": a failed JSON parse
equals the empty configuration; an unrecognized module entry and an
unrecognized key are ignored. -/
theorem build_config_fallback_witness :
    Entity_build "theory_of_mind".toList none =
      Entity_build "theory_of_mind".toList (some []) ∧
    "junk_module" ∉ recognizedModules ∧
    Entity_build "theory_of_mind".toList
        (some [("junk_module", [("x", ConfigVal.num 1)])]) =
      Entity_build "theory_of_mind".toList (some []) ∧
    "junk_key" ∉ recognizedKeys "theory_of_mind" ∧
    Entity_build "theory_of_mind".toList
        (some [("theory_of_mind", [("junk_key", ConfigVal.num 1)])]) =
      Entity_build "theory_of_mind".toList (some [("theory_of_mind", [])]) :=
  ⟨build_config_fallback.1 "theory_of_mind".toList,
   by decide,
   build_config_fallback.2.2.1 "theory_of_mind".toList []
     "junk_module" [("x", ConfigVal.num 1)] (by decide),
   by decide,
   build_config_fallback.2.2.2 "theory_of_mind".toList "theory_of_mind" []
     [] "junk_key" (ConfigVal.num 1) (by decide)⟩

/-- Membership in a conditional singleton forces the element. -/
theorem mem_if_singleton {α : Type} {e x : α} {c : Prop} [Decidable c]
    (h : e ∈ if c then [x] else ([] : List α)) : e = x := by
  by_cases hc : c
  · rw [if_pos hc] at h
    simpa using h
  · rw [if_neg hc] at h
    simp at h

/-- Appending an element different from the sought one does not change
`contains`. -/
theorem contains_append_single (junk nm : List Char) (h : nm ≠ junk)
    (mods : List (List Char)) :
    (mods ++ [junk]).contains nm = mods.contains nm := by
  simp [h]

/-- Every chunk of a comma-split of a string of spaces and commas consists of
spaces. -/
theorem pySplitComma_space :
    ∀ s : List Char, (∀ c ∈ s, isPySpace c = true ∨ c = ',') →
      ∀ chunk ∈ pySplitComma s, ∀ c ∈ chunk, isPySpace c = true := by
  intro s
  induction s with
  | nil =>
    intro _ chunk hchunk
    simp only [pySplitComma, List.mem_singleton] at hchunk
    subst hchunk
    intro c hc
    simp at hc
  | cons a rest ih =>
    intro h chunk hchunk
    have hrest : ∀ c ∈ rest, isPySpace c = true ∨ c = ',' :=
      fun c hc => h c (List.mem_cons_of_mem a hc)
    by_cases ha : a = ','
    · rw [show pySplitComma (a :: rest) = [] :: pySplitComma rest from by
        simp [pySplitComma, ha]] at hchunk
      rcases List.mem_cons.mp hchunk with hc | hc
      · subst hc
        intro c hc
        simp at hc
      · exact ih hrest chunk hc
    · have haS : isPySpace a = true :=
        (h a (List.mem_cons_self a rest)).resolve_right ha
      rw [show pySplitComma (a :: rest) =
          (match pySplitComma rest with
            | [] => [[a]]
            | chunk :: chunks => (a :: chunk) :: chunks) from by
        simp [pySplitComma, ha]] at hchunk
      cases hsplit : pySplitComma rest with
      | nil =>
        rw [hsplit] at hchunk
        simp only [List.mem_singleton] at hchunk
        subst hchunk
        intro c hc
        rcases List.mem_singleton.mp hc with rfl
        exact haS
      | cons ch chs =>
        rw [hsplit] at hchunk
        rcases List.mem_cons.mp hchunk with hc | hc
        · subst hc
          intro c hc
          rcases List.mem_cons.mp hc with rfl | hcc
          · exact haS
          · exact ih hrest ch (hsplit ▸ List.mem_cons_self ch chs) c hcc
        · exact ih hrest chunk (hsplit ▸ List.mem_cons_of_mem ch hc)

/-- Stripping an all-space string yields the empty string. -/
theorem pyStrip_space (l : List Char) (h : ∀ c ∈ l, isPySpace c = true) :
    pyStrip l = [] := by
  unfold pyStrip
  rw [List.dropWhile_eq_nil_iff.mpr h]
  rfl

/-- A modules string of spaces and commas parses to the empty module list. -/
theorem parseModules_space (s : List Char)
    (h : ∀ c ∈ s, isPySpace c = true ∨ c = ',') : parseModules s = [] := by
  unfold parseModules
  rw [List.filter_eq_nil_iff.mpr]
  intro m hm
  rcases List.mem_map.mp hm with ⟨chunk, hchunk, rfl⟩
  have hws := pySplitComma_space s h chunk hchunk
  simp [pyStrip_space chunk hws]

/-- Claim C10: `Entity.build` silently ignores a comma-separated module entry
that is not one of the six recognized names — no component is added for it
and construction succeeds; every built component key is one of the six; and
an empty or whitespace-only modules string yields an empty extra-components
mapping. -/
theorem build_unknown_modules_ignored :
    (∀ (mods : List (List Char)) (junk : List Char) (cfgs : ModuleConfigs),
      junk ∉ recognizedModules.map String.toList →
      buildExtraComponents (mods ++ [junk]) cfgs =
        buildExtraComponents mods cfgs) ∧
    (∀ (ms : List Char) (mc : Option ModuleConfigs) (e : String × Component),
      e ∈ Entity_build ms mc →
      e.1 ∈ ["CulturalAdaptation", "TemporalStrategy", "SwarmIntelligence",
        "UncertaintyAware", "StrategyEvolution", "TheoryOfMind"]) ∧
    (∀ (ms : List Char) (mc : Option ModuleConfigs),
      (∀ c ∈ ms, isPySpace c = true ∨ c = ',') → Entity_build ms mc = []) := by
  refine ⟨?_, ?_, ?_⟩
  · intro mods junk cfgs hj
    have hm : ∀ s : String, s ∈ recognizedModules → s.toList ≠ junk :=
      fun s hs hEq => hj (hEq ▸ List.mem_map_of_mem String.toList hs)
    unfold buildExtraComponents
    rw [contains_append_single junk _ (hm _ (by decide)),
      contains_append_single junk _ (hm _ (by decide)),
      contains_append_single junk _ (hm _ (by decide)),
      contains_append_single junk _ (hm _ (by decide)),
      contains_append_single junk _ (hm _ (by decide)),
      contains_append_single junk _ (hm _ (by decide))]
  · intro ms mc e he
    unfold Entity_build buildExtraComponents at he
    simp only [List.mem_append, or_assoc] at he
    rcases he with h | h | h | h | h | h <;> rw [mem_if_singleton h] <;> simp
  · intro ms mc hws
    unfold Entity_build
    rw [parseModules_space ms hws]
    rfl

/-- Witness for C10: an unknown entry "negotiation_jutsu" appended to
"theory_of_mind" adds nothing; a component key of a build is among the six
names; and the whitespace-and-commas string " , , " yields no components. -/
theorem build_unknown_modules_ignored_witness :
    ("negotiation_jutsu".toList ∉ recognizedModules.map String.toList) ∧
    buildExtraComponents
        (["theory_of_mind".toList] ++ ["negotiation_jutsu".toList]) [] =
      buildExtraComponents ["theory_of_mind".toList] [] ∧
    (("TheoryOfMind", mkTheoryOfMind []) ∈
      Entity_build "theory_of_mind".toList (some []) ∧
      ("TheoryOfMind", mkTheoryOfMind []).1 ∈
        ["CulturalAdaptation", "TemporalStrategy", "SwarmIntelligence",
          "UncertaintyAware", "StrategyEvolution", "TheoryOfMind"]) ∧
    ((∀ c ∈ " , , ".toList, isPySpace c = true ∨ c = ',') ∧
      Entity_build " , , ".toList (some []) = []) := by
  have hbuild : Entity_build "theory_of_mind".toList (some []) =
      [("TheoryOfMind", mkTheoryOfMind [])] := rfl
  have hmem : ("TheoryOfMind", mkTheoryOfMind []) ∈
      Entity_build "theory_of_mind".toList (some []) := by
    rw [hbuild]
    exact List.mem_singleton.mpr rfl
  refine ⟨by decide, ?_, ⟨hmem, ?_⟩, ⟨by decide, ?_⟩⟩
  · exact build_unknown_modules_ignored.1 ["theory_of_mind".toList]
      "negotiation_jutsu".toList [] (by decide)
  · exact build_unknown_modules_ignored.2.1 "theory_of_mind".toList
      (some []) ("TheoryOfMind", mkTheoryOfMind []) hmem
  · exact build_unknown_modules_ignored.2.2 " , , ".toList (some [])
      (by decide)

end Concordia
